import Mathlib

/-!
Shallow embedding of the accumulator betting bot
(src/accumulator_bot_mock.py) and verification of its specification.

Python floats are modelled as rationals; rational literals are written with
mkRat so that concrete values evaluate inside the kernel.  Python exceptions
are modelled with Except; in-place mutation of the shared legs list by the
mock API is modelled by explicit state passing; randomness (random.random,
random.uniform, random.shuffle) is modelled by injected value streams and an
injected permutation function.
-/

deriving instance DecidableEq for Except

namespace AccBot

/-- Configuration defaults, from the environment-variable defaults at the top
of the module: MIN_ODDS = 1.20, MAX_LEGS = 4, MAX_RETRIES = 5,
RETRY_BACKOFF_BASE = 1.5, DEFAULT_STAKE = 5.0, MATCH_SELECTION = top. -/
def MIN_ODDS : ℚ := mkRat 6 5

def MAX_LEGS : Nat := 4

def MAX_RETRIES : Nat := 5

def RETRY_BACKOFF_BASE : ℚ := mkRat 3 2

def DEFAULT_STAKE : ℚ := mkRat 5 1

def MATCH_SELECTION_MODE : String := "top"

/-- Kernel-computable power on rationals, modelling the Python operator
base ** n for a natural exponent. -/
def qpow (b : ℚ) : Nat → ℚ
  | 0 => 1
  | n + 1 => qpow b n * b

/-- Python max(a, b): returns a when a is at least b, otherwise b. -/
def pymax (a b : ℚ) : ℚ := if b ≤ a then a else b

/-- Round-half-even of a rational to an integer, the rounding used by the
Python builtin round on exact values: compare the fractional part with 1/2
using integer arithmetic on the canonical num and den. -/
def rhe (x : ℚ) : ℤ :=
  let f := Int.fdiv x.num (x.den : ℤ)
  let r := Int.fmod x.num (x.den : ℤ)
  if 2 * r < (x.den : ℤ) then f
  else if (x.den : ℤ) < 2 * r then f + 1
  else if f % 2 = 0 then f else f + 1

/-- round(x, 2) from the source: round to two decimal places, half to even. -/
def round2 (x : ℚ) : ℚ := mkRat (rhe (x * 100)) 100

/-- An event as produced by MockBettingAPI.get_available_matches: match_id,
the two team names, start_time (ISO strings of identical format compare
exactly like the instants they denote, so the start time is modelled by a
Nat), decimal odds, availability flag. -/
structure Match where
  match_id : String
  teamA : String
  teamB : String
  start_time : Nat
  odds : ℚ
  available : Bool
deriving Repr, DecidableEq

/-- The filter used by choose_matches: m.get("available", True) and
m.get("odds", 0) >= MIN_ODDS.  Every modelled record carries both fields, so
the dictionary defaults never fire. -/
def selPred (m : Match) : Bool := m.available && decide (MIN_ODDS ≤ m.odds)

/-- choose_matches from the source.  The list comprehension builds the fresh
list available; mode random shuffles it (random.shuffle is modelled by the
injected permutation function shuffle), mode from_feed sorts it by start
time, any other mode sorts it by odds descending; Python list.sort is a
stable sort, modelled by List.mergeSort; [:max_legs] is List.take. -/
def choose_matches (shuffle : List Match → List Match) (ms : List Match)
    (mode : String) (max_legs : Nat) : List Match :=
  let available := ms.filter selPred
  if available.isEmpty then []
  else if mode == "random" then (shuffle available).take max_legs
  else if mode == "from_feed" then
    (available.mergeSort (fun a b => decide (a.start_time ≤ b.start_time))).take max_legs
  else
    (available.mergeSort (fun a b => decide (b.odds ≤ a.odds))).take max_legs

/-- A heap of match records addressed by reference, for the frame property of
choose_matches: the Python caller passes a list of references to dict
objects, and mutating a dict (as MockBettingAPI.place_accumulator does to
legs) would be a store update. -/
structure MatchStore where
  recs : Nat → Match

/-- Store-passing translation of choose_matches, operating on a list of
references into a MatchStore.  Each step of the source is translated with the
store threaded through: the comprehension allocates a fresh list of the
surviving references, sort and shuffle reorder that fresh list only, and no
step writes to the store or to the input list, so both are returned
unchanged. -/
def choose_matches_st (shuffle : List Nat → List Nat) (store : MatchStore)
    (ms : List Nat) (mode : String) (max_legs : Nat) :
    MatchStore × List Nat × List Nat :=
  let available := ms.filter (fun r => selPred (store.recs r))
  let selected :=
    if available.isEmpty then []
    else if mode == "random" then (shuffle available).take max_legs
    else if mode == "from_feed" then
      (available.mergeSort
        (fun a b => decide ((store.recs a).start_time ≤ (store.recs b).start_time))).take max_legs
    else
      (available.mergeSort
        (fun a b => decide ((store.recs b).odds ≤ (store.recs a).odds))).take max_legs
  (store, ms, selected)

/-- A leg of the placement payload built by build_accumulator: match_id,
selection text (teamA ++ " vs " ++ teamB), odds at selection time,
availability at selection time. -/
structure ApiLeg where
  match_id : String
  selection : String
  odds : ℚ
  available : Bool
deriving Repr, DecidableEq

/-- The payload built by build_accumulator and handed to place_accumulator:
the legs list plus the stake. -/
structure Placement where
  legs : List ApiLeg
  stake : ℚ

/-- The dict returned by MockBettingAPI.place_accumulator.  bet_id is an
Option because run_once reads it with .get("bet_id") and defends against a
missing key. -/
structure PlaceResp where
  bet_id : Option String
  status : String
  total_odd : ℚ
  potential_return : ℚ
deriving Repr, DecidableEq

/-- The random draws consumed by one call of
MockBettingAPI.place_accumulator: the network-failure draw, the 8 percent
odds-change draw, the per-leg uniform(0.90, 1.12) factors (indexed in leg
order), and the 50 percent reject-after-change draw. -/
structure PlaceRand where
  netFail : Bool
  oddsChange : Bool
  factor : Nat → ℚ
  rejectAfterChange : Bool

/-- The per-leg validation loop of MockBettingAPI.place_accumulator: the
first leg that is unavailable, or whose odds are below MIN_ODDS, determines
the raised message. -/
def legValidationError : List ApiLeg → Option String
  | [] => none
  | leg :: rest =>
    if !leg.available then some ("Leg " ++ leg.match_id ++ " unavailable at placement")
    else if leg.odds < MIN_ODDS then some ("Leg " ++ leg.match_id ++ " odds too low")
    else legValidationError rest

/-- The in-place odds mutation of the odds-change branch: for each leg, in
order, leg["odds"] = round(max(1.05, leg["odds"] * uniform(0.90, 1.12)), 2),
with the i-th uniform draw taken from the factor stream. -/
def mutateOdds (factor : Nat → ℚ) : Nat → List ApiLeg → List ApiLeg
  | _, [] => []
  | i, leg :: rest =>
    { leg with odds := round2 (pymax (mkRat 21 20) (leg.odds * factor i)) } ::
      mutateOdds factor (i + 1) rest

/-- total_odd accumulation: total_odd = 1.0; for leg in legs: total_odd *=
leg["odds"]. -/
def accProduct (legs : List ApiLeg) : ℚ := legs.foldl (fun acc leg => acc * leg.odds) 1

/-- MockBettingAPI.place_accumulator.  The Python method mutates the caller
shared legs list in place in the odds-change branch; that mutation is
modelled by returning the possibly updated legs list alongside the Except
result.  sessionValid models membership of the session token in _sessions,
next_bet_id models the _next_bet_id counter. -/
def mock_place (sessionValid : Bool) (legs : List ApiLeg) (stake : ℚ)
    (next_bet_id : Nat) (r : PlaceRand) : List ApiLeg × Except String PlaceResp :=
  if r.netFail then (legs, .error "Simulated transient network error")
  else if !sessionValid then (legs, .error "Invalid session")
  else
    match legValidationError legs with
    | some msg => (legs, .error msg)
    | none =>
      let legs1 := if r.oddsChange then mutateOdds r.factor 0 legs else legs
      if r.oddsChange && r.rejectAfterChange then
        (legs1, .error "Odds changed during placement - please retry")
      else
        let total := accProduct legs1
        (legs1, .ok { bet_id := some ("B" ++ toString next_bet_id),
                      status := "ACCEPTED",
                      total_odd := round2 total,
                      potential_return := round2 (stake * total) })

/-- exponential_backoff from the source:
(RETRY_BACKOFF_BASE ** (attempt - 1)) + random.random() * 0.5, with the
configured base passed explicitly and the random.random() draw (a value in
[0, 1)) injected as r. -/
def exponential_backoff (base : ℚ) (attempt : Nat) (r : ℚ) : ℚ :=
  qpow base (attempt - 1) + r * mkRat 1 2

/-- Observable trace of one retry_on_exception run: number of calls of the
wrapped operation, number of failed calls (one warning log each), the slept
backoff delays in order, and the outcome.  The error carries an Option
because with max_retries = 0 the Python code reaches raise last_exc with
last_exc still None. -/
structure RetryTrace (E A : Type) where
  calls : Nat
  fails : Nat
  sleeps : List ℚ
  result : Except (Option E) A
deriving Repr

/-- The retry loop of retry_on_exception, from attempt number k with the
given remaining attempts.  The environment is modelled by op, giving the
outcome of the attempt with each number; rand gives the random.random() draw
consumed by the backoff of each attempt.  The except branch records the
failure, computes the backoff and sleeps it - also when no attempt remains,
exactly as in the source, where time.sleep sits inside the except block of
the final iteration - and the loop then re-raises the last error. -/
def retryFrom {E A : Type} (op : Nat → Except E A) (rand : Nat → ℚ) (base : ℚ) :
    Nat → Nat → Option E → RetryTrace E A
  | _, 0, last => ⟨0, 0, [], .error last⟩
  | k, fuel + 1, _ =>
    match op k with
    | .ok a => ⟨1, 0, [], .ok a⟩
    | .error e =>
      let w := exponential_backoff base k (rand k)
      let t := retryFrom op rand base (k + 1) fuel (some e)
      ⟨t.calls + 1, t.fails + 1, w :: t.sleeps, t.result⟩

/-- retry_on_exception(fn, max_retries): attempts numbered from 1. -/
def retry_on_exception {E A : Type} (op : Nat → Except E A) (rand : Nat → ℚ)
    (base : ℚ) (max_retries : Nat) : RetryTrace E A :=
  retryFrom op rand base 1 max_retries none

/-- Trace of retry_on_exception applied to api.place_accumulator with the
shared legs list: sent records the legs list exactly as passed to the remote
call on each attempt, in order. -/
structure PlaceRetryTrace where
  sent : List (List ApiLeg)
  result : Except (Option String) PlaceResp

/-- The retry loop around MockBettingAPI.place_accumulator.  Python passes
placement["legs"] by reference on every attempt, so when an attempt mutates
the leg dicts in place, the next attempt re-sends the mutated list: the legs
state returned by mock_place is threaded into the following attempt. -/
def retry_place (sessionValid : Bool) (stake : ℚ) (next_bet_id : Nat)
    (rands : Nat → PlaceRand) : Nat → Nat → List ApiLeg → Option String → PlaceRetryTrace
  | _, 0, _, last => ⟨[], .error last⟩
  | k, fuel + 1, legs, _ =>
    let step := mock_place sessionValid legs stake next_bet_id (rands k)
    match step.2 with
    | .ok resp => ⟨[legs], .ok resp⟩
    | .error e =>
      let t := retry_place sessionValid stake next_bet_id rands (k + 1) fuel step.1 (some e)
      ⟨legs :: t.sent, t.result⟩

/-- Python falsiness of self.session_token: None or the empty string. -/
def tokenFalsy : Option String → Bool
  | none => true
  | some s => s.isEmpty

/-- Outcome of AccumulatorBot.place_accumulator: whether the retried remote
placement call was issued, and the result. -/
structure BotPlaceOutcome where
  remoteCalled : Bool
  result : Except String PlaceResp

/-- AccumulatorBot.place_accumulator: if not self.session_token, raise
RuntimeError("Not authenticated"); otherwise invoke the retried remote
placement call with the placement legs and stake.  remote models the net
outcome of the retry-wrapped api.place_accumulator call as a function of the
legs and stake actually sent. -/
def bot_place_accumulator (session_token : Option String) (placement : Placement)
    (remote : List ApiLeg → ℚ → Except String PlaceResp) : BotPlaceOutcome :=
  if tokenFalsy session_token then ⟨false, .error "Not authenticated"⟩
  else ⟨true, remote placement.legs placement.stake⟩

/-- The legs-payload construction of build_accumulator:
{"match_id": .., "selection": teams[0] + " vs " + teams[1], "odds": ..,
"available": ..}. -/
def leg_payload (m : Match) : ApiLeg :=
  ⟨m.match_id, m.teamA ++ " vs " ++ m.teamB, m.odds, m.available⟩

/-- The bet record returned by MockBettingAPI.get_bet, restricted to the
fields run_once reads for final reporting and persistence. -/
structure BetInfo where
  bet_id : String
  stake : ℚ
  total_odd : ℚ
  potential_return : ℚ
  status : String
deriving Repr, DecidableEq

/-- Net outcomes of the four retry-wrapped remote calls made by one run, as
seen by run_once: the retry layer is verified separately, so each field gives
the value returned, or the error propagated, by the corresponding
retry_on_exception call. -/
structure World where
  auth : Except String String
  fetch : Except String (List Match)
  place : List ApiLeg → ℚ → Except String PlaceResp
  getBet : String → Except String BetInfo

/-- Observable outcome of one AccumulatorBot.run_once call: the Python return
value, any exception propagated out of run_once, the record persisted to
placed_bets.jsonl, whether the confirm (get_bet) call was made, and the
error-level log line if any. -/
structure RunOutcome where
  retVal : Option BetInfo
  raised : Option String
  persisted : Option BetInfo
  confirmCalled : Bool
  errorLogged : Option String
deriving Repr, DecidableEq

/-- Python falsiness of bet_id = placement_result.get("bet_id"): the key is
absent, or its value is the empty string. -/
def strOptFalsy : Option String → Bool
  | none => true
  | some s => s.isEmpty

/-- The except branch of run_once: logger.exception("Run failed: %s", e) and
fall off the end, returning None, persisting nothing. -/
def mkFail (e : String) (confirmed : Bool) : RunOutcome :=
  ⟨none, none, none, confirmed, some ("Run failed: " ++ e)⟩

/-- The missing-bet_id branch of run_once: logger.error("No bet_id returned
from placement") followed by a bare return. -/
def noBetId : RunOutcome :=
  ⟨none, none, none, false, some "No bet_id returned from placement"⟩

/-- AccumulatorBot.run_once(stake): login, build_accumulator (fetch, select
with mode MATCH_SELECTION and MAX_LEGS legs, fail when fewer than 2 are
selected; if not selected or len(selected) < 2 is equivalent to
len(selected) < 2), place_accumulator (guarded only by the session token),
the bet_id check, confirm, persist.  The whole body sits in a try whose
except catches every exception, logs it and returns None; the successful
path also returns None, because the Python function has no return value. -/
def run_once (w : World) (stake : ℚ) : RunOutcome :=
  match w.auth with
  | .error e => mkFail e false
  | .ok token =>
    match w.fetch with
    | .error e => mkFail e false
    | .ok ms =>
      let selected := choose_matches id ms MATCH_SELECTION_MODE MAX_LEGS
      if selected.length < 2 then
        mkFail "Not enough valid legs available to form an accumulator" false
      else
        let placement := Placement.mk (selected.map leg_payload) stake
        if token.isEmpty then mkFail "Not authenticated" false
        else
          match w.place placement.legs placement.stake with
          | .error e => mkFail e false
          | .ok resp =>
            if strOptFalsy resp.bet_id then noBetId
            else
              match w.getBet (resp.bet_id.getD "") with
              | .error e => mkFail e true
              | .ok info => ⟨none, none, some info, true, none⟩

/-- The delays slept by the retry loop are exactly the backoffs of the failed
attempts, one per failed attempt, in attempt order. -/
theorem retryFrom_sleeps {E A : Type} (op : Nat → Except E A) (rand : Nat → ℚ) (base : ℚ) :
    ∀ (fuel k : Nat) (last : Option E),
      (retryFrom op rand base k fuel last).sleeps =
        (List.range' k (retryFrom op rand base k fuel last).fails).map
          (fun i => exponential_backoff base i (rand i)) := by
  intro fuel
  induction fuel with
  | zero => intro k last; simp [retryFrom]
  | succ n ih =>
    intro k last
    simp only [retryFrom]
    cases hop : op k with
    | ok a => simp
    | error e =>
      simp only [List.range'_succ]
      rw [List.map_cons]
      exact congrArg _ (ih (k + 1) (some e))

/-- Every attempt whose backoff was slept did fail. -/
theorem retryFrom_fails_failed {E A : Type} (op : Nat → Except E A) (rand : Nat → ℚ) (base : ℚ) :
    ∀ (fuel k : Nat) (last : Option E) (j : Nat),
      j ∈ List.range' k (retryFrom op rand base k fuel last).fails →
        ∃ e, op j = .error e := by
  intro fuel
  induction fuel with
  | zero => intro k last j hj; simp [retryFrom] at hj
  | succ n ih =>
    intro k last j hj
    simp only [retryFrom] at hj
    cases hop : op k with
    | ok a => rw [hop] at hj; simp at hj
    | error e =>
      rw [hop] at hj
      simp only [List.range'_succ, List.mem_cons] at hj
      rcases hj with hj | hj
      · exact ⟨e, hj ▸ hop⟩
      · exact ih (k + 1) (some e) j hj

/-- When every attempt fails, the loop makes exactly fuel calls, each one
failing, and ends with the error of the last attempt made (or re-raises the
incoming last error when no attempt remains). -/
theorem retryFrom_all_fail {E A : Type} (op : Nat → Except E A) (rand : Nat → ℚ) (base : ℚ)
    (f : Nat → E) (hop : ∀ k, op k = .error (f k)) :
    ∀ (fuel k : Nat) (last : Option E),
      (retryFrom op rand base k fuel last).calls = fuel ∧
      (retryFrom op rand base k fuel last).result =
        .error (if fuel = 0 then last else some (f (k + fuel - 1))) := by
  intro fuel
  induction fuel with
  | zero => intro k last; simp [retryFrom]
  | succ n ih =>
    intro k last
    simp only [retryFrom, hop k]
    rcases ih (k + 1) (some (f k)) with ⟨ih1, ih2⟩
    refine ⟨by simpa using ih1, ?_⟩
    simp only [ih2]
    cases n with
    | zero => simp
    | succ m =>
      have h1 : k + 1 + (m + 1) - 1 = k + (m + 1 + 1) - 1 := by omega
      simp [h1]

/-- Claim C4 (corrected): in retry_on_exception a backoff delay of
base^(k-1) + rand(k) * 0.5 seconds is computed and slept after EVERY failed
attempt k - including the final attempt, whose sleep happens inside the
except block just before the error is propagated - and only failed attempts
are followed by a sleep.  The slept delays are exactly the backoffs of
attempts 1..fails, and each of those attempts failed. -/
theorem retry_sleeps_after_every_failure {E A : Type} (op : Nat → Except E A)
    (rand : Nat → ℚ) (base : ℚ) (max_retries : Nat) :
    (retry_on_exception op rand base max_retries).sleeps =
      (List.range' 1 (retry_on_exception op rand base max_retries).fails).map
        (fun k => exponential_backoff base k (rand k)) ∧
    (∀ j ∈ List.range' 1 (retry_on_exception op rand base max_retries).fails,
      ∃ e, op j = .error e) :=
  ⟨retryFrom_sleeps op rand base max_retries 1 none,
   fun j hj => retryFrom_fails_failed op rand base max_retries 1 none j hj⟩

/-- Witness for C4 at a concrete always-failing operation with three
attempts. -/
theorem retry_sleeps_after_every_failure_witness :
    (retry_on_exception (fun _ => (Except.error 0 : Except Nat Nat)) (fun _ => 0)
        (mkRat 3 2) 3).sleeps =
      (List.range' 1 (retry_on_exception (fun _ => (Except.error 0 : Except Nat Nat))
        (fun _ => 0) (mkRat 3 2) 3).fails).map
        (fun k => exponential_backoff (mkRat 3 2) k 0) ∧
    (∀ j ∈ List.range' 1 (retry_on_exception (fun _ => (Except.error 0 : Except Nat Nat))
        (fun _ => 0) (mkRat 3 2) 3).fails,
      ∃ e, (fun _ => (Except.error 0 : Except Nat Nat)) j = .error e) :=
  retry_sleeps_after_every_failure (fun _ => .error 0) (fun _ => 0) (mkRat 3 2) 3

/-- Counterexample to claim C4 as stated: with maxAttempts = 1 the single
attempt is the final attempt, yet its failure is followed by a slept delay of
base^0 + 0*0.5 = 1 second before the error is propagated; the claim asserts
the sleeps list would be empty. -/
theorem backoff_after_final_attempt_counterexample :
    (retry_on_exception (fun _ => (Except.error 0 : Except Nat Nat)) (fun _ => 0)
        (mkRat 3 2) 1).sleeps = [1] ∧
    (retry_on_exception (fun _ => (Except.error 0 : Except Nat Nat)) (fun _ => 0)
        (mkRat 3 2) 1).result = .error (some 0) ∧
    ([1] : List ℚ) ≠ [] := by
  refine ⟨?_, by with_unfolding_all decide, by decide⟩
  with_unfolding_all decide

/-- Claim C6 (confirmed): an operation that fails on every attempt is
invoked exactly max_retries times, and the error finally propagated is
exactly the error produced by the final attempt, unchanged. -/
theorem retry_exhaustion_calls_and_error {E A : Type} (op : Nat → Except E A)
    (rand : Nat → ℚ) (base : ℚ) (max_retries : Nat) (f : Nat → E)
    (hop : ∀ k, op k = .error (f k)) (hm : 1 ≤ max_retries) :
    (retry_on_exception op rand base max_retries).calls = max_retries ∧
    (retry_on_exception op rand base max_retries).result = .error (some (f max_retries)) := by
  rcases retryFrom_all_fail op rand base f hop max_retries 1 none with ⟨h1, h2⟩
  refine ⟨h1, ?_⟩
  unfold retry_on_exception
  rw [h2, if_neg (by omega)]
  have h3 : 1 + max_retries - 1 = max_retries := by omega
  rw [h3]

/-- Witness for C6: per-attempt distinct errors, three attempts, final error
is the one of attempt 3. -/
theorem retry_exhaustion_witness :
    (retry_on_exception (fun k => (Except.error k : Except Nat Nat)) (fun _ => 0)
        (mkRat 3 2) 3).calls = 3 ∧
    (retry_on_exception (fun k => (Except.error k : Except Nat Nat)) (fun _ => 0)
        (mkRat 3 2) 3).result = .error (some 3) :=
  retry_exhaustion_calls_and_error (fun k => .error k) (fun _ => 0) (mkRat 3 2) 3
    (fun k => k) (fun _ => rfl) (by decide)

/-- A stable sort leaves each class of mutually tied elements exactly as the
input ordered it: filtering the sorted list to a class whose members compare
le in both directions gives the same list as filtering the input. -/
theorem mergeSort_filter_eq_of_class {α : Type} (le : α → α → Bool)
    (htrans : ∀ a b c, le a b → le b c → le a c)
    (htotal : ∀ a b, le a b || le b a)
    (p : α → Bool) (hcl : ∀ a b, p a → p b → le a b) (l : List α) :
    (l.mergeSort le).filter p = l.filter p := by
  have hpair : (l.filter p).Pairwise (fun a b => le a b) :=
    List.pairwise_of_forall_mem_list
      (fun a ha b hb => hcl a b (List.of_mem_filter ha) (List.of_mem_filter hb))
  have hsub : List.Sublist (l.filter p) (l.mergeSort le) :=
    List.sublist_mergeSort htrans htotal hpair (List.filter_sublist l)
  have hall : ∀ a ∈ l.filter p, p a = true := fun a ha => List.of_mem_filter ha
  have hsub2 : List.Sublist (l.filter p) ((l.mergeSort le).filter p) := by
    have h := hsub.filter p
    rwa [List.filter_eq_self.mpr hall] at h
  have hlen : (l.filter p).length = ((l.mergeSort le).filter p).length :=
    (((List.mergeSort_perm l le).filter p).length_eq).symm
  exact (hsub2.eq_of_length hlen).symm

/-- Filtering a prefix of a list yields a prefix of the filtered list. -/
theorem prefix_filter_take {α : Type} (p : α → Bool) (l : List α) (n : Nat) :
    (l.take n).filter p <+: l.filter p :=
  ⟨(l.drop n).filter p, by rw [← List.filter_append, List.take_append_drop]⟩

/-- Transitivity of the descending-odds comparison used by mode top. -/
theorem oddsLe_trans (a b c : Match) (h1 : decide (b.odds ≤ a.odds) = true)
    (h2 : decide (c.odds ≤ b.odds) = true) : decide (c.odds ≤ a.odds) = true := by
  simp only [decide_eq_true_eq] at *
  exact le_trans h2 h1

/-- Totality of the descending-odds comparison used by mode top. -/
theorem oddsLe_total (a b : Match) :
    (decide (b.odds ≤ a.odds) || decide (a.odds ≤ b.odds)) = true := by
  rcases le_total a.odds b.odds with h | h <;> simp [h]

/-- Transitivity of the ascending-start-time comparison of mode from_feed. -/
theorem startLe_trans (a b c : Match) (h1 : decide (a.start_time ≤ b.start_time) = true)
    (h2 : decide (b.start_time ≤ c.start_time) = true) :
    decide (a.start_time ≤ c.start_time) = true := by
  simp only [decide_eq_true_eq] at *
  exact le_trans h1 h2

/-- Totality of the ascending-start-time comparison of mode from_feed. -/
theorem startLe_total (a b : Match) :
    (decide (a.start_time ≤ b.start_time) || decide (b.start_time ≤ a.start_time)) = true := by
  rcases le_total a.start_time b.start_time with h | h <;> simp [h]

/-- Shape of choose_matches in mode top on a nonempty filtered set. -/
theorem choose_matches_top_eq (shuffle : List Match → List Match) (ms : List Match)
    (max_legs : Nat) (hav : (ms.filter selPred).isEmpty = false) :
    choose_matches shuffle ms "top" max_legs =
      ((ms.filter selPred).mergeSort (fun a b => decide (b.odds ≤ a.odds))).take max_legs := by
  simp only [choose_matches]
  rw [if_neg (by simp [hav]), if_neg (by decide), if_neg (by decide)]

/-- Shape of choose_matches in mode from_feed on a nonempty filtered set. -/
theorem choose_matches_feed_eq (shuffle : List Match → List Match) (ms : List Match)
    (max_legs : Nat) (hav : (ms.filter selPred).isEmpty = false) :
    choose_matches shuffle ms "from_feed" max_legs =
      ((ms.filter selPred).mergeSort
        (fun a b => decide (a.start_time ≤ b.start_time))).take max_legs := by
  simp only [choose_matches]
  rw [if_neg (by simp [hav]), if_neg (by decide), if_pos (by decide)]

/-- choose_matches on an empty filtered set returns the empty list. -/
theorem choose_matches_empty (shuffle : List Match → List Match) (ms : List Match)
    (mode : String) (max_legs : Nat) (hav : (ms.filter selPred).isEmpty = true) :
    choose_matches shuffle ms mode max_legs = [] := by
  simp only [choose_matches]
  rw [if_pos hav]

/-- Claim C7 (confirmed): for every event list and mode, choose_matches
returns at most max_legs elements, every returned element is available with
odds at least MIN_ODDS, and an empty filtered set yields the empty list.
The injected shuffle is assumed to permute its argument, as random.shuffle
does. -/
theorem choose_matches_filter_sound (shuffle : List Match → List Match) (ms : List Match)
    (mode : String) (max_legs : Nat) (hsh : ∀ l, List.Perm (shuffle l) l) :
    (choose_matches shuffle ms mode max_legs).length ≤ max_legs ∧
    (∀ m ∈ choose_matches shuffle ms mode max_legs, m.available = true ∧ MIN_ODDS ≤ m.odds) ∧
    (ms.filter selPred = [] → choose_matches shuffle ms mode max_legs = []) := by
  have hshape : choose_matches shuffle ms mode max_legs = [] ∨
      ∃ l2, List.Perm l2 (ms.filter selPred) ∧
        choose_matches shuffle ms mode max_legs = l2.take max_legs := by
    by_cases hav : (ms.filter selPred).isEmpty
    · exact Or.inl (choose_matches_empty shuffle ms mode max_legs hav)
    · right
      simp only [choose_matches]
      rw [if_neg (by simp [Bool.not_eq_true] at hav ⊢; exact hav)]
      by_cases hr : (mode == "random") = true
      · rw [if_pos hr]
        exact ⟨shuffle (ms.filter selPred), hsh _, rfl⟩
      · rw [if_neg hr]
        by_cases hf : (mode == "from_feed") = true
        · rw [if_pos hf]
          exact ⟨_, List.mergeSort_perm _ _, rfl⟩
        · rw [if_neg hf]
          exact ⟨_, List.mergeSort_perm _ _, rfl⟩
  refine ⟨?_, ?_, ?_⟩
  · rcases hshape with h | ⟨l2, _, h⟩
    · simp [h]
    · rw [h]; exact l2.length_take_le max_legs
  · intro m hm
    rcases hshape with h | ⟨l2, hperm, h⟩
    · rw [h] at hm; cases hm
    · rw [h] at hm
      have hm2 : m ∈ l2 := (List.take_sublist _ _).subset hm
      have hm3 : m ∈ ms.filter selPred := hperm.mem_iff.mp hm2
      have hp := (List.mem_filter.mp hm3).2
      simp only [selPred, Bool.and_eq_true, decide_eq_true_eq] at hp
      exact hp
  · intro hempty
    exact choose_matches_empty shuffle ms mode max_legs (by simp [hempty])

/-- Claim C8 (confirmed): in mode top the selection is in non-increasing
odds order and, for every odds value, the selected elements carrying that
value form a prefix of the tied elements in input order; in mode from_feed
the selection is in non-decreasing start-time order with the analogous
prefix property for every start time.  This is exactly stability: tied
elements are kept in original input order. -/
theorem choose_matches_ordering (shuffle : List Match → List Match) (ms : List Match)
    (max_legs : Nat) :
    ((choose_matches shuffle ms "top" max_legs).Pairwise (fun a b => b.odds ≤ a.odds) ∧
      ∀ q : ℚ, (choose_matches shuffle ms "top" max_legs).filter (fun m => decide (m.odds = q)) <+:
        (ms.filter selPred).filter (fun m => decide (m.odds = q))) ∧
    ((choose_matches shuffle ms "from_feed" max_legs).Pairwise
        (fun a b => a.start_time ≤ b.start_time) ∧
      ∀ t : Nat, (choose_matches shuffle ms "from_feed" max_legs).filter
          (fun m => decide (m.start_time = t)) <+:
        (ms.filter selPred).filter (fun m => decide (m.start_time = t))) := by
  by_cases hav : (ms.filter selPred).isEmpty
  · have h1 := choose_matches_empty shuffle ms "top" max_legs hav
    have h2 := choose_matches_empty shuffle ms "from_feed" max_legs hav
    rw [h1, h2]
    exact ⟨⟨List.Pairwise.nil, fun q => ⟨_, rfl⟩⟩, ⟨List.Pairwise.nil, fun t => ⟨_, rfl⟩⟩⟩
  · have hav2 : (ms.filter selPred).isEmpty = false := by
      simpa [Bool.not_eq_true] using hav
    have htop := choose_matches_top_eq shuffle ms max_legs hav2
    have hfeed := choose_matches_feed_eq shuffle ms max_legs hav2
    rw [htop, hfeed]
    refine ⟨⟨?_, ?_⟩, ?_, ?_⟩
    · have hS := List.sorted_mergeSort oddsLe_trans oddsLe_total (ms.filter selPred)
      have hT := hS.sublist (List.take_sublist max_legs _)
      exact hT.imp (fun h => of_decide_eq_true h)
    · intro q
      have hstab := mergeSort_filter_eq_of_class (fun a b => decide (b.odds ≤ a.odds))
        oddsLe_trans oddsLe_total (fun m => decide (m.odds = q))
        (fun a b ha hb => by
          simp only [decide_eq_true_eq] at *
          rw [ha, hb])
        (ms.filter selPred)
      rw [← hstab]
      exact prefix_filter_take _ _ _
    · have hS := List.sorted_mergeSort startLe_trans startLe_total (ms.filter selPred)
      have hT := hS.sublist (List.take_sublist max_legs _)
      exact hT.imp (fun h => of_decide_eq_true h)
    · intro t
      have hstab := mergeSort_filter_eq_of_class
        (fun a b => decide (a.start_time ≤ b.start_time))
        startLe_trans startLe_total (fun m => decide (m.start_time = t))
        (fun a b ha hb => by
          simp only [decide_eq_true_eq] at *
          rw [ha, hb])
        (ms.filter selPred)
      rw [← hstab]
      exact prefix_filter_take _ _ _

/-- Claim C10 (confirmed): the store-passing translation of choose_matches
returns the store and the input reference list unchanged for every mode
(random included): the selector never writes a record field and never
reorders or resizes the caller list; it builds its result from a fresh
list.  Every record readable through the store after the call is the record
that was there before. -/
theorem choose_matches_st_frame (shuffle : List Nat → List Nat) (store : MatchStore)
    (ms : List Nat) (mode : String) (max_legs : Nat) :
    (choose_matches_st shuffle store ms mode max_legs).1 = store ∧
    (choose_matches_st shuffle store ms mode max_legs).2.1 = ms ∧
    ∀ r : Nat, ((choose_matches_st shuffle store ms mode max_legs).1).recs r = store.recs r :=
  ⟨rfl, rfl, fun _ => rfl⟩

/-- Witness for C10 at a concrete store, reference list and mode random. -/
theorem choose_matches_st_frame_witness :
    (choose_matches_st List.reverse ⟨fun _ => ⟨"M001", "A", "B", 1, mkRat 3 2, true⟩⟩
        [0, 1, 2] "random" 4).1 = ⟨fun _ => ⟨"M001", "A", "B", 1, mkRat 3 2, true⟩⟩ ∧
    (choose_matches_st List.reverse ⟨fun _ => ⟨"M001", "A", "B", 1, mkRat 3 2, true⟩⟩
        [0, 1, 2] "random" 4).2.1 = [0, 1, 2] ∧
    ∀ r : Nat, ((choose_matches_st List.reverse ⟨fun _ => ⟨"M001", "A", "B", 1, mkRat 3 2, true⟩⟩
        [0, 1, 2] "random" 4).1).recs r = (⟨fun _ => ⟨"M001", "A", "B", 1, mkRat 3 2, true⟩⟩ :
          MatchStore).recs r :=
  choose_matches_st_frame List.reverse ⟨fun _ => ⟨"M001", "A", "B", 1, mkRat 3 2, true⟩⟩
    [0, 1, 2] "random" 4

/-- A remote placement endpoint that accepts everything, for concrete runs. -/
def acceptAllRemote : List ApiLeg → ℚ → Except String PlaceResp :=
  fun _ _ => .ok ⟨some "B1000", "ACCEPTED", mkRat 1 1, mkRat 0 1⟩

/-- Counterexample to claim C2 as stated: with a session token present and a
stake of 0, place_accumulator issues the remote placement call - and passes
the zero stake through to it - instead of rejecting the request by a local
guard.  The source method has no stake guard at all. -/
theorem stake_guard_counterexample :
    (bot_place_accumulator (some "session-1") (Placement.mk [] (mkRat 0 1))
        acceptAllRemote).remoteCalled = true ∧
    (bot_place_accumulator (some "session-1") (Placement.mk [] (mkRat 0 1))
        acceptAllRemote).result = acceptAllRemote [] (mkRat 0 1) ∧
    mkRat 0 1 ≤ 0 := by
  refine ⟨rfl, rfl, by decide⟩

/-- Claim C2 (corrected): the only local guard of
AccumulatorBot.place_accumulator is the session token: when the token is
falsy the method raises RuntimeError("Not authenticated") without a remote
call, and otherwise the remote placement call is issued whatever the stake
is - a zero or negative stake is not rejected locally. -/
theorem bot_place_guard_only_token (session_token : Option String)
    (placement : Placement) (remote : List ApiLeg → ℚ → Except String PlaceResp) :
    (bot_place_accumulator session_token placement remote).remoteCalled =
      !(tokenFalsy session_token) ∧
    (tokenFalsy session_token = true →
      bot_place_accumulator session_token placement remote =
        ⟨false, .error "Not authenticated"⟩) := by
  unfold bot_place_accumulator
  cases h : tokenFalsy session_token <;> simp [h]

/-- Witness for C2 at a missing token and at a present token with stake 0. -/
theorem bot_place_guard_only_token_witness :
    ((bot_place_accumulator none (Placement.mk [] (mkRat 0 1))
        acceptAllRemote).remoteCalled = !(tokenFalsy none) ∧
      (tokenFalsy none = true →
        bot_place_accumulator none (Placement.mk [] (mkRat 0 1)) acceptAllRemote =
          ⟨false, .error "Not authenticated"⟩)) :=
  bot_place_guard_only_token none (Placement.mk [] (mkRat 0 1)) acceptAllRemote

/-- The in-place odds mutation touches only the odds field: identifiers,
selection texts and availability flags are untouched. -/
theorem mutateOdds_maps (factor : Nat → ℚ) :
    ∀ (i : Nat) (legs : List ApiLeg),
      (mutateOdds factor i legs).map (fun leg => leg.match_id) =
        legs.map (fun leg => leg.match_id) ∧
      (mutateOdds factor i legs).map (fun leg => leg.available) =
        legs.map (fun leg => leg.available) ∧
      (mutateOdds factor i legs).map (fun leg => leg.selection) =
        legs.map (fun leg => leg.selection) := by
  intro i legs
  induction legs generalizing i with
  | nil => simp [mutateOdds]
  | cons leg rest ih =>
    rcases ih (i + 1) with ⟨ih1, ih2, ih3⟩
    simp [mutateOdds, ih1, ih2, ih3]

/-- The legs state returned by one mock placement call agrees with the
incoming legs on identifiers, availability and selection text: only odds can
have been mutated. -/
theorem mock_place_fst_maps (sessionValid : Bool) (legs : List ApiLeg) (stake : ℚ)
    (next_bet_id : Nat) (r : PlaceRand) :
    ((mock_place sessionValid legs stake next_bet_id r).1.map (fun leg => leg.match_id) =
        legs.map (fun leg => leg.match_id)) ∧
    ((mock_place sessionValid legs stake next_bet_id r).1.map (fun leg => leg.available) =
        legs.map (fun leg => leg.available)) ∧
    ((mock_place sessionValid legs stake next_bet_id r).1.map (fun leg => leg.selection) =
        legs.map (fun leg => leg.selection)) := by
  unfold mock_place
  rcases mutateOdds_maps r.factor 0 legs with ⟨h1, h2, h3⟩
  split
  · exact ⟨rfl, rfl, rfl⟩
  · split
    · exact ⟨rfl, rfl, rfl⟩
    · split
      · exact ⟨rfl, rfl, rfl⟩
      · by_cases hc : r.oddsChange = true
        · simp only [hc, if_true]
          split
          · exact ⟨h1, h2, h3⟩
          · exact ⟨h1, h2, h3⟩
        · have hc2 : r.oddsChange = false := by simpa using hc
          simp only [hc2, if_false]
          split
          · exact ⟨rfl, rfl, rfl⟩
          · exact ⟨rfl, rfl, rfl⟩

/-- Claim C3 (corrected): every attempt of the retried placement re-sends
the same legs list - same identifiers, same order, same availability flags
and selection texts as the snapshot taken at selection time - but NOT
necessarily the same odds: the payload is shared by reference with the mock
service, which mutates leg odds in place during an odds-change event, so an
attempt that follows an odds-change rejection sends the mutated odds rather
than the odds computed at selection.  The invariant that does hold for every
sent payload is identifier, availability and selection preservation. -/
theorem retry_place_sent_preserves_ids (sessionValid : Bool) (stake : ℚ)
    (next_bet_id : Nat) (rands : Nat → PlaceRand) (fuel k : Nat)
    (legs : List ApiLeg) (last : Option String) :
    ∀ sent ∈ (retry_place sessionValid stake next_bet_id rands k fuel legs last).sent,
      sent.map (fun leg => leg.match_id) = legs.map (fun leg => leg.match_id) ∧
      sent.map (fun leg => leg.available) = legs.map (fun leg => leg.available) ∧
      sent.map (fun leg => leg.selection) = legs.map (fun leg => leg.selection) := by
  induction fuel generalizing k legs last with
  | zero => intro sent hs; simp [retry_place] at hs
  | succ n ih =>
    intro sent hs
    simp only [retry_place] at hs
    cases hstep : (mock_place sessionValid legs stake next_bet_id (rands k)).2 with
    | ok resp =>
      rw [hstep] at hs
      simp at hs
      rw [hs]
      exact ⟨rfl, rfl, rfl⟩
    | error e =>
      rw [hstep] at hs
      simp only [List.mem_cons] at hs
      rcases hs with hs | hs
      · rw [hs]; exact ⟨rfl, rfl, rfl⟩
      · rcases ih (k + 1) (mock_place sessionValid legs stake next_bet_id (rands k)).1
          (some e) sent hs with ⟨ih1, ih2, ih3⟩
        rcases mock_place_fst_maps sessionValid legs stake next_bet_id (rands k)
          with ⟨hm1, hm2, hm3⟩
        exact ⟨ih1.trans hm1, ih2.trans hm2, ih3.trans hm3⟩

/-- A single selected leg at odds 2.00, as sent on the first attempt. -/
def snapshotLegs : List ApiLeg := [⟨"M001", "Team1A vs Team1B", mkRat 2 1, true⟩]

/-- Randomness making attempt 1 an odds-change rejection with a factor of
1.0625 on the single leg, and every later attempt a clean acceptance. -/
def oddsChangeRands : Nat → PlaceRand := fun k =>
  if k = 1 then ⟨false, true, fun _ => mkRat 17 16, true⟩
  else ⟨false, false, fun _ => mkRat 1 1, false⟩

/-- Counterexample to claim C3 as stated: after the odds-change rejection of
attempt 1, attempt 2 re-sends the shared legs list with odds
round(2.00 * 1.0625, 2) = 2.12, not the selection-time odds 2.00: the
retried request does not carry the original odds values. -/
theorem retry_resend_odds_counterexample :
    ((retry_place true (mkRat 5 1) 1000 oddsChangeRands 1 5 snapshotLegs none).sent.map
        (fun l => l.map (fun leg => leg.odds))) = [[mkRat 2 1], [mkRat 53 25]] ∧
    mkRat 53 25 ≠ mkRat 2 1 := by
  constructor
  · with_unfolding_all decide
  · decide

/-- Witness for C3 on a run whose single attempt is accepted. -/
theorem retry_place_sent_preserves_ids_witness :
    snapshotLegs ∈ (retry_place true (mkRat 5 1) 1000 (fun _ => ⟨false, false, fun _ => mkRat 1 1, false⟩)
        1 5 snapshotLegs none).sent ∧
    (snapshotLegs.map (fun leg => leg.match_id) = snapshotLegs.map (fun leg => leg.match_id) ∧
      snapshotLegs.map (fun leg => leg.available) = snapshotLegs.map (fun leg => leg.available) ∧
      snapshotLegs.map (fun leg => leg.selection) = snapshotLegs.map (fun leg => leg.selection)) :=
  ⟨by with_unfolding_all decide,
   retry_place_sent_preserves_ids true (mkRat 5 1) 1000
     (fun _ => ⟨false, false, fun _ => mkRat 1 1, false⟩) 5 1 snapshotLegs none snapshotLegs
     (by with_unfolding_all decide)⟩

/-- Two selected legs at odds 1.25 and 1.50, whose product 1.875 is not
representable at two decimal places. -/
def roundingLegs : List ApiLeg :=
  [⟨"M001", "Team1A vs Team1B", mkRat 5 4, true⟩, ⟨"M002", "Team2A vs Team2B", mkRat 3 2, true⟩]

/-- Randomness for a clean acceptance: no network failure, no odds change. -/
def cleanRand : PlaceRand := ⟨false, false, fun _ => mkRat 1 1, false⟩

/-- Counterexample to claim C9 as stated: on an accepted placement of legs
with odds 1.25 and 1.50 at stake 10, the product of the submitted leg odds is
1.875, but the returned combined odds field is round(1.875, 2) = 1.88, which
differs from the product; the returned potential return is
round(10 * 1.875, 2) = 18.75, which differs from the stake times the returned
combined odds (18.8). -/
theorem combined_odds_rounding_counterexample :
    (mock_place true roundingLegs (mkRat 10 1) 1000 cleanRand).2 =
      .ok ⟨some "B1000", "ACCEPTED", mkRat 47 25, mkRat 75 4⟩ ∧
    accProduct roundingLegs = mkRat 15 8 ∧
    mkRat 47 25 ≠ mkRat 15 8 ∧
    mkRat 75 4 ≠ mkRat 10 1 * mkRat 47 25 := by
  refine ⟨?_, ?_, by decide, ?_⟩
  · with_unfolding_all decide
  · with_unfolding_all decide
  · with_unfolding_all decide

/-- Claim C9 (corrected): on EVERY accepted placement - the clean path and
the path that accepts after an odds-change event alike - the returned
combined odds equal the product, rounded to two decimal places (half to
even), of the odds of the legs list as it stands at acceptance time: the
submitted legs when no odds-change event fired, and the in-place mutated
legs when one did.  The returned potential return equals the stake
multiplied by that UNROUNDED product, rounded to two decimal places.  The
original claim fails on both paths: on the clean path the product is
rounded, and on the odds-change path the product is taken over mutated
odds. -/
theorem mock_place_accept_values (sessionValid : Bool) (legs : List ApiLeg)
    (stake : ℚ) (next_bet_id : Nat) (r : PlaceRand) (resp : PlaceResp)
    (hok : (mock_place sessionValid legs stake next_bet_id r).2 = .ok resp) :
    resp = ⟨some ("B" ++ toString next_bet_id), "ACCEPTED",
      round2 (accProduct (if r.oddsChange then mutateOdds r.factor 0 legs else legs)),
      round2 (stake * accProduct (if r.oddsChange then mutateOdds r.factor 0 legs else legs))⟩ := by
  simp only [mock_place] at hok
  by_cases h1 : r.netFail = true
  · rw [if_pos h1] at hok; simp at hok
  · rw [if_neg h1] at hok
    by_cases h2 : (!sessionValid) = true
    · rw [if_pos h2] at hok; simp at hok
    · rw [if_neg h2] at hok
      cases hval : legValidationError legs with
      | some msg => rw [hval] at hok; simp at hok
      | none =>
        rw [hval] at hok
        by_cases h3 : (r.oddsChange && r.rejectAfterChange) = true
        · rw [if_pos h3] at hok; simp at hok
        · rw [if_neg h3] at hok
          exact (Except.ok.inj hok).symm

/-- The randomness of an accepted odds-change placement: the 8 percent
odds-change draw fires with a factor of 1.0625 on every leg, and the 50
percent rejection draw does not. -/
def changeAcceptRand : PlaceRand := ⟨false, true, fun _ => mkRat 17 16, false⟩

/-- The response of the accepted odds-change placement of the 1.25 and 1.50
legs at stake 10: the mutated odds are round(1.25 * 1.0625, 2) = 1.33 and
round(1.50 * 1.0625, 2) = 1.59, whose product 2.1147 rounds to combined odds
2.11 with potential return round(10 * 2.1147, 2) = 21.15. -/
def acceptedResp : PlaceResp := ⟨some "B1000", "ACCEPTED", mkRat 211 100, mkRat 2115 100⟩

/-- Witness for C9 on the odds-change-accepted path: the legs are mutated in
place before acceptance and the response prices the mutated list. -/
theorem mock_place_accept_values_witness :
    (mock_place true roundingLegs (mkRat 10 1) 1000 changeAcceptRand).2 = .ok acceptedResp ∧
    acceptedResp = ⟨some ("B" ++ toString 1000), "ACCEPTED",
      round2 (accProduct (if changeAcceptRand.oddsChange then
        mutateOdds changeAcceptRand.factor 0 roundingLegs else roundingLegs)),
      round2 (mkRat 10 1 * accProduct (if changeAcceptRand.oddsChange then
        mutateOdds changeAcceptRand.factor 0 roundingLegs else roundingLegs))⟩ :=
  ⟨by with_unfolding_all decide,
   mock_place_accept_values true roundingLegs (mkRat 10 1) 1000 changeAcceptRand acceptedResp
     (by with_unfolding_all decide)⟩

/-- Two available matches with odds 1.50 and 1.30, already in descending
odds order, used for concrete runs of the selector. -/
def wm1 : Match := ⟨"M001", "Team1A", "Team1B", 1, mkRat 3 2, true⟩

def wm2 : Match := ⟨"M002", "Team2A", "Team2B", 2, mkRat 13 10, true⟩

/-- Witness for C7 at a concrete two-element event list in mode top, with the
identity permutation standing for random.shuffle. -/
theorem choose_matches_filter_sound_witness :
    (choose_matches id [wm1, wm2] "top" 4).length ≤ 4 ∧
    (∀ m ∈ choose_matches id [wm1, wm2] "top" 4, m.available = true ∧ MIN_ODDS ≤ m.odds) ∧
    (List.filter selPred [wm1, wm2] = [] → choose_matches id [wm1, wm2] "top" 4 = []) :=
  choose_matches_filter_sound id [wm1, wm2] "top" 4 (fun l => List.Perm.refl l)

/-- Witness for C8 at the same concrete event list. -/
theorem choose_matches_ordering_witness :
    ((choose_matches id [wm1, wm2] "top" 4).Pairwise (fun a b => b.odds ≤ a.odds) ∧
      ∀ q : ℚ, (choose_matches id [wm1, wm2] "top" 4).filter (fun m => decide (m.odds = q)) <+:
        (List.filter selPred [wm1, wm2]).filter (fun m => decide (m.odds = q))) ∧
    ((choose_matches id [wm1, wm2] "from_feed" 4).Pairwise
        (fun a b => a.start_time ≤ b.start_time) ∧
      ∀ t : Nat, (choose_matches id [wm1, wm2] "from_feed" 4).filter
          (fun m => decide (m.start_time = t)) <+:
        (List.filter selPred [wm1, wm2]).filter (fun m => decide (m.start_time = t))) :=
  choose_matches_ordering id [wm1, wm2] 4

/-- Claim C1 (corrected): run_once never returns a wager result and never
raises: the whole body sits in a catch-all except, so on every input the
Python return value is None and no exception propagates; failures are only
logged.  The Failed outcome is observable solely through the log and the
absence of a persisted record. -/
theorem run_once_no_return_no_raise (w : World) (stake : ℚ) :
    (run_once w stake).retVal = none ∧ (run_once w stake).raised = none := by
  simp only [run_once]
  repeat' split
  all_goals exact ⟨rfl, rfl⟩

/-- Witness for C1 at a concrete world whose authentication fails. -/
theorem run_once_no_return_no_raise_witness :
    (run_once ⟨.error "boom", .ok [], acceptAllRemote, fun _ => .error "x"⟩
        (mkRat 5 1)).retVal = none ∧
    (run_once ⟨.error "boom", .ok [], acceptAllRemote, fun _ => .error "x"⟩
        (mkRat 5 1)).raised = none :=
  run_once_no_return_no_raise ⟨.error "boom", .ok [], acceptAllRemote, fun _ => .error "x"⟩
    (mkRat 5 1)

/-- Counterexample to claim C1 as stated: at a world whose authentication
call fails after retries, run_once neither returns a wager result nor raises
an error - it swallows the failure, logs it and returns None.  The claim
asserts one of the two first outcomes always happens. -/
theorem run_once_swallows_counterexample :
    (run_once ⟨.error "Simulated transient network error", .ok [], acceptAllRemote,
        fun _ => .error "x"⟩ DEFAULT_STAKE).retVal = none ∧
    (run_once ⟨.error "Simulated transient network error", .ok [], acceptAllRemote,
        fun _ => .error "x"⟩ DEFAULT_STAKE).raised = none ∧
    (run_once ⟨.error "Simulated transient network error", .ok [], acceptAllRemote,
        fun _ => .error "x"⟩ DEFAULT_STAKE).errorLogged =
      some "Run failed: Simulated transient network error" := by
  refine ⟨rfl, rfl, rfl⟩

/-- A placement response with no bet identifier. -/
def respNoId : PlaceResp := ⟨none, "ACCEPTED", mkRat 1 1, mkRat 1 1⟩

/-- A world whose first three remote calls succeed but whose placement
response lacks the bet_id key. -/
def W5 : World :=
  ⟨.ok "session-1", .ok [wm1, wm2], fun _ _ => .ok respNoId, fun _ => .error "unused"⟩

/-- Claim C5 (corrected): when the placement result lacks a bet identifier,
run_once does NOT raise; it logs "No bet_id returned from placement" and
returns None without calling confirm and without persisting anything.  The
missing identifier is handled by a logged early return, not by an
OrchestrationError. -/
theorem run_once_missing_bet_id (w : World) (stake : ℚ) (token : String)
    (ms : List Match) (resp : PlaceResp)
    (h1 : w.auth = .ok token)
    (h2 : w.fetch = .ok ms)
    (h3 : 2 ≤ (choose_matches id ms MATCH_SELECTION_MODE MAX_LEGS).length)
    (h4 : token.isEmpty = false)
    (h5 : w.place ((choose_matches id ms MATCH_SELECTION_MODE MAX_LEGS).map leg_payload)
        stake = .ok resp)
    (h6 : strOptFalsy resp.bet_id = true) :
    run_once w stake = noBetId := by
  unfold run_once
  rw [h1, h2]
  simp only []
  rw [if_neg (by omega), if_neg (by simp [h4]), h5]
  simp only []
  rw [if_pos h6]

/-- The concrete selection of W5: both matches survive the filter, the list
is already sorted by descending odds, and take 4 keeps both. -/
theorem W5_selection : choose_matches id [wm1, wm2] MATCH_SELECTION_MODE MAX_LEGS = [wm1, wm2] := by
  have h := choose_matches_top_eq id [wm1, wm2] MAX_LEGS (by decide)
  rw [show MATCH_SELECTION_MODE = "top" from rfl, h,
    List.mergeSort_of_sorted (by decide), show List.filter selPred [wm1, wm2] = [wm1, wm2]
      from by decide]
  decide

/-- Witness for C5 at the concrete world W5. -/
theorem run_once_missing_bet_id_witness : run_once W5 DEFAULT_STAKE = noBetId :=
  run_once_missing_bet_id W5 DEFAULT_STAKE "session-1" [wm1, wm2] respNoId rfl rfl
    (by rw [W5_selection]; decide) rfl rfl rfl

/-- Counterexample to claim C5 as stated: at W5 the placement result has no
bet identifier, yet run_once raises nothing - the run completes silently
(returning None) after logging, never reaching the confirm call.  The claim
asserts an OrchestrationError is raised immediately. -/
theorem missing_bet_id_counterexample :
    (run_once W5 DEFAULT_STAKE).raised = none ∧
    (run_once W5 DEFAULT_STAKE).confirmCalled = false ∧
    (run_once W5 DEFAULT_STAKE).persisted = none ∧
    (run_once W5 DEFAULT_STAKE).errorLogged = some "No bet_id returned from placement" := by
  have h : run_once W5 DEFAULT_STAKE = noBetId := by
    have h1 : W5.auth = .ok "session-1" := rfl
    have h2 : W5.fetch = .ok [wm1, wm2] := rfl
    have h5 : W5.place ((choose_matches id [wm1, wm2] MATCH_SELECTION_MODE MAX_LEGS).map
        leg_payload) DEFAULT_STAKE = .ok respNoId := rfl
    unfold run_once
    rw [h1, h2]
    simp only []
    rw [if_neg (by rw [W5_selection]; decide), if_neg (by decide), h5]
    simp only []
    rw [if_pos (by decide)]
  rw [h]
  exact ⟨rfl, rfl, rfl, rfl⟩

end AccBot
